import Mathlib

/-!
Formal model of `src/auto_refresh.py` (stock price auto-refresh monitor).

Conventions of the embedding:
* Python `float` prices are modelled as `ℚ` (the program only ever compares,
  adds, subtracts, multiplies and divides quote values; no rounding-sensitive
  behaviour is claimed).
* Python `str` is modelled as `List Char` (`PyStr`), with the handful of string
  operations the program uses (`strip`, whitespace `split`, `split('.')[0]`,
  `startswith('#')`, `int(...)`) re-implemented structurally below.
* Python `int` is modelled as `ℤ`, volumes included.
* A Python expression that can raise (`ZeroDivisionError` in
  `display_stock_info`, a failed fetch in `get_stock_realtime_data`) is
  modelled with `Option`: `none` is the raised/failed outcome.
* The process-wide dict `last_prices` is modelled as a function
  `PyStr → Option ℚ` (`None` meaning "key absent"), and the quote service is
  abstracted as a function `fetch : PyStr → Option Quote` giving, per cycle,
  the parsed quote (or `none` for a failed fetch) for each stock code.
-/

namespace StockMonitor

/-- Python strings, modelled as lists of characters. -/
abbrev PyStr := List Char

/-- Python `str.strip()`: remove leading and trailing whitespace. -/
def pyStrip (s : PyStr) : PyStr :=
  ((s.dropWhile Char.isWhitespace).reverse.dropWhile Char.isWhitespace).reverse

/-- Helper for `pySplitWs`: accumulate the current word (reversed) while
scanning the input. -/
def pySplitWsAux : PyStr → PyStr → List PyStr
  | [], acc => if acc = [] then [] else [acc.reverse]
  | c :: rest, acc =>
    if c.isWhitespace then
      if acc = [] then pySplitWsAux rest [] else acc.reverse :: pySplitWsAux rest []
    else pySplitWsAux rest (c :: acc)

/-- Python `str.split()` with no argument: split on runs of whitespace,
discarding empty pieces. Used by `read_stock_list` (`line.split()`). -/
def pySplitWs (s : PyStr) : List PyStr := pySplitWsAux s []

/-- Python `line.startswith('#')`. -/
def startsHash : PyStr → Bool
  | [] => false
  | c :: _ => c == '#'

/-- Python `parts[0].split('.')[0]`: the characters before the first `'.'`
(drops an exchange suffix such as `.SZ` or `.SH`). -/
def codeToken (p : PyStr) : PyStr := p.takeWhile (fun c => !(c == '.'))

/-- Numeric value of a decimal digit character, `none` for non-digits. -/
def digitVal (c : Char) : Option ℕ := if c.isDigit then some (c.toNat - 48) else none

/-- Accumulating decimal parser over a digit list. -/
def parseDigitsAux : List Char → ℕ → Option ℕ
  | [], acc => some acc
  | c :: cs, acc =>
    match digitVal c with
    | some d => parseDigitsAux cs (10 * acc + d)
    | none => none

/-- Parse a non-empty all-digit string as a natural number. -/
def parseDigits : List Char → Option ℕ
  | [] => none
  | cs => parseDigitsAux cs 0

/-- Python `int(s)` as used on the quantity field: optional surrounding
whitespace, optional sign, decimal digits; anything else raises `ValueError`
(modelled as `none`). (Python additionally accepts digit-group underscores
and non-ASCII digits; those inputs are outside this model and are treated as
parse failures.) -/
def pyParseInt (s : PyStr) : Option ℤ :=
  match pyStrip s with
  | '-' :: cs => (parseDigits cs).map (fun n => -(n : ℤ))
  | '+' :: cs => (parseDigits cs).map (fun n => (n : ℤ))
  | cs => (parseDigits cs).map (fun n => (n : ℤ))

/-- One entry of the configured stock list: bare code and held quantity.
Source: `read_stock_list` returns dicts `{'code': ..., 'quantity': ...}`. -/
structure StockItem where
  code : PyStr
  quantity : ℤ
deriving DecidableEq

/-- Parse one line of the stock list file, following `read_stock_list`
(src/auto_refresh.py lines 194-210): strip the line, skip empty and
`#`-comment lines, take the code as the first field up to the first `'.'`,
and the quantity as `int(parts[1])` when present and well-formed, else 0. -/
def parseStockLine (line : PyStr) : Option StockItem :=
  let l := pyStrip line
  if l = [] then none
  else if startsHash l then none
  else
    match pySplitWs l with
    | [] => none
    | p0 :: rest =>
      let quantity : ℤ :=
        match rest with
        | [] => 0
        | p1 :: _ => (pyParseInt p1).getD 0
      some ⟨codeToken p0, quantity⟩

/-- The whole `read_stock_list` body over the (already line-split) file. -/
def read_stock_list (lines : List PyStr) : List StockItem :=
  lines.filterMap parseStockLine

/-- Parsed quote record, as built by `get_stock_realtime_data`
(src/auto_refresh.py lines 140-149). -/
structure Quote where
  code : PyStr
  name : PyStr
  pre_close : ℚ
  price : ℚ
  high : ℚ
  low : ℚ
  time : PyStr
  is_suspended : Bool
deriving DecidableEq

/-- Suspension test of the full-field parse path (at least 32 fields),
src/auto_refresh.py lines 134-138:
`(price == pre_close and volume == 0 and high == low and high == pre_close)
 or (price == 0 and pre_close != 0)
 or (volume == 0 and price == pre_close)`. -/
def is_suspended_full (pre_close price high low : ℚ) (volume : ℤ) : Bool :=
  (decide (price = pre_close) && decide (volume = 0) && decide (high = low)
      && decide (high = pre_close))
    || (decide (price = 0) && decide (pre_close ≠ 0))
    || (decide (volume = 0) && decide (price = pre_close))

/-- The quote record returned on the full-field parse path, given the already
`float`/`int`-converted fields (name = field 0, pre_close = field 2,
price = field 3, high = field 4, low = field 5, volume = field 8,
time = field 31). Spaces are removed from the name as in the source. -/
def full_field_quote (code name : PyStr) (pre_close price high low : ℚ)
    (volume : ℤ) (time : PyStr) : Quote :=
  ⟨code, name.filter (fun c => !(c == ' ')), pre_close, price, high, low, time,
    is_suspended_full pre_close price high low volume⟩

/-- Trend marker printed in the Trend column (red up / green down /
yellow flat arrow). -/
inductive Trend
  | up
  | down
  | flat
deriving DecidableEq

/-- Python division, raising `ZeroDivisionError` on a zero divisor. -/
def pydiv (a b : ℚ) : Option ℚ := if b = 0 then none else some (a / b)

/-- Trend computation of `display_stock_info` (src/auto_refresh.py lines
239-249): compare the displayed price with the previous recorded price,
flat when no previous price exists. -/
def trendOf (display_price : ℚ) (last_price : Option ℚ) : Trend :=
  match last_price with
  | some lp =>
    if display_price > lp then Trend.up
    else if display_price < lp then Trend.down
    else Trend.flat
  | none => Trend.flat

/-- Numeric content of one successfully rendered table row, plus the `cost`
value returned alongside it by `display_stock_info`. -/
structure RenderedRow where
  name : PyStr
  quantity : ℤ
  trend : Trend
  high : ℚ
  low : ℚ
  display_price : ℚ
  change : ℚ
  change_pct : ℚ
  profit_amount : ℚ
  cost : ℚ
  time : PyStr
deriving DecidableEq

/-- Core of `display_stock_info` for a present quote (src/auto_refresh.py
lines 218-298). Mirrors the source order: `change` and `change_pct` are
computed first — the division by `pre_close` happens before the suspended
override, so `pre_close = 0` raises (`none`) even for suspended quotes —
then the suspended case replaces the displayed price by `pre_close` and
zeroes the change, and finally profit, trend and cost are derived. -/
def displayRow (info : Quote) (qty : ℤ) (last_price : Option ℚ) :
    Option RenderedRow :=
  match pydiv (info.price - info.pre_close) info.pre_close with
  | none => none
  | some d =>
    let change0 := info.price - info.pre_close
    let change_pct0 := d * 100
    let display_price := if info.is_suspended then info.pre_close else info.price
    let change := if info.is_suspended then 0 else change0
    let change_pct := if info.is_suspended then 0 else change_pct0
    let profit_amount := (display_price - info.pre_close) * (qty : ℚ)
    some ⟨info.name, qty, trendOf display_price last_price, info.high, info.low,
      display_price, change, change_pct, profit_amount,
      info.pre_close * (qty : ℚ), info.time⟩

/-- Full `display_stock_info`: for a present quote it renders a row and
returns `(profit_amount, display_price, pre_close * quantity)`; for an absent
quote it returns `(0, 0, 0)` without rendering. `none` is the
`ZeroDivisionError` outcome. -/
def display_stock_info (info : Option Quote) (qty : ℤ) (last_price : Option ℚ) :
    Option (ℚ × ℚ × ℚ) :=
  match info with
  | some q => (displayRow q qty last_price).map
      (fun r => (r.profit_amount, r.display_price, r.cost))
  | none => some (0, 0, 0)

/-- Effective price in the spec's sense (§4.3 step 1): `pre_close` for a
suspended quote, the fetched price otherwise. In the source this is the
`display_price` local of `display_stock_info`. -/
def effective_price (q : Quote) : ℚ :=
  if q.is_suspended then q.pre_close else q.price

/-- One element of the `stock_profits` list built in `monitor_loop`
(src/auto_refresh.py lines 410-424): the stock item, its fetched quote (or
`none`), the holding quantity, and the sort-key `profit_amount`, which the
loop computes from the RAW fetched price (line 405), not from the
suspension-adjusted display price. -/
structure ProfitEntry where
  item : StockItem
  info : Option Quote
  holding_quantity : ℤ
  profit_amount : ℚ
deriving DecidableEq

/-- Build the `stock_profits` element for one stock item (src/auto_refresh.py
lines 395-424): raw profit `(price - pre_close) * quantity` on success,
profit `0.0` on a failed fetch. -/
def cycleEntry (fetch : PyStr → Option Quote) (it : StockItem) : ProfitEntry :=
  match fetch it.code with
  | some q => ⟨it, some q, it.quantity, (q.price - q.pre_close) * (it.quantity : ℚ)⟩
  | none => ⟨it, none, it.quantity, 0⟩

/-- The `stock_profits` list for the whole stock list, in input order. -/
def cycleEntries (sl : List StockItem) (fetch : PyStr → Option Quote) :
    List ProfitEntry :=
  sl.map (cycleEntry fetch)

/-- One step of the `last_prices` update (src/auto_refresh.py lines 406-408):
`last_prices[code] = price` only when `price > 0`; a failed fetch or a
non-positive price leaves the map alone. -/
def updStep (fetch : PyStr → Option Quote) (m : PyStr → Option ℚ)
    (it : StockItem) : PyStr → Option ℚ :=
  match fetch it.code with
  | some q =>
    if 0 < q.price then fun c => if c = it.code then some q.price else m c
    else m
  | none => m

/-- The `last_prices` update performed over the whole stock list while
building `stock_profits` (src/auto_refresh.py lines 395-408). -/
def updateLastPrices (sl : List StockItem) (fetch : PyStr → Option Quote)
    (lp : PyStr → Option ℚ) : PyStr → Option ℚ :=
  sl.foldl (updStep fetch) lp

/-- The optional sort (src/auto_refresh.py lines 427-429):
`stock_profits.sort(key=lambda x: x['profit_amount'], reverse=True)` — a
stable sort into non-increasing `profit_amount` order, modelled by stable
insertion sort. -/
def sortEntries (sort_by_profit : Bool) (l : List ProfitEntry) :
    List ProfitEntry :=
  if sort_by_profit then
    l.insertionSort (fun a b => b.profit_amount ≤ a.profit_amount)
  else l

/-- One printed table row: either a real data row or the `--` placeholder row
printed for a stock whose fetch failed (src/auto_refresh.py lines 446-458). -/
inductive Row
  | data : RenderedRow → Row
  | placeholder : PyStr → ℤ → Row
deriving DecidableEq

/-- Render one `stock_profits` element (src/auto_refresh.py lines 434-458)
against the pre-cycle snapshot of `last_prices`, returning the row together
with its contribution to `total_profit` and `total_cost` (a placeholder row
contributes `0` to both). -/
def renderEntry (snapshot : PyStr → Option ℚ) (e : ProfitEntry) :
    Option (Row × ℚ × ℚ) :=
  match e.info with
  | some q =>
    (displayRow q e.holding_quantity (snapshot e.item.code)).map
      (fun r => (Row.data r, r.profit_amount, r.cost))
  | none => some (Row.placeholder e.item.code e.holding_quantity, 0, 0)

/-- Render the whole `stock_profits` list in order, accumulating
`total_profit` and `total_cost`; `none` if any row raises. -/
def renderAll (snapshot : PyStr → Option ℚ) :
    List ProfitEntry → Option (List Row × ℚ × ℚ)
  | [] => some ([], 0, 0)
  | e :: es =>
    match renderEntry snapshot e, renderAll snapshot es with
    | some (row, p, c), some (rows, tp, tc) => some (row :: rows, p + tp, c + tc)
    | _, _ => none

/-- Overall return computation (src/auto_refresh.py lines 461-464):
`total_profit / total_cost * 100` when `total_cost != 0`, else `0.0`. -/
def overallReturn (total_profit total_cost : ℚ) : ℚ :=
  if total_cost ≠ 0 then total_profit / total_cost * 100 else 0

/-- Observable outcome of one refresh cycle: the printed rows and the summary
numbers. -/
structure CycleResult where
  rows : List Row
  total_profit : ℚ
  total_cost : ℚ
  overall_return : ℚ
deriving DecidableEq

/-- One iteration of `monitor_loop` (src/auto_refresh.py lines 380-484),
given the pre-cycle `last_prices` map `lp`: build `stock_profits`, optionally
sort, render every row against the pre-cycle snapshot of `last_prices`
(`last_prices_for_display`, taken before any update of the cycle), and
aggregate the summary. `none` is an uncaught `ZeroDivisionError`. The
`last_prices` map after the cycle is `updateLastPrices sl fetch lp`. -/
def runCycle (sl : List StockItem) (fetch : PyStr → Option Quote)
    (lp : PyStr → Option ℚ) (sort_by_profit : Bool) : Option CycleResult :=
  match renderAll lp (sortEntries sort_by_profit (cycleEntries sl fetch)) with
  | some (rows, tp, tc) => some ⟨rows, tp, tc, overallReturn tp tc⟩
  | none => none

/-- Profit values of the data rows of a rendered table, in print order
(placeholder rows print `--`, not a number). -/
def rowProfits (rows : List Row) : List ℚ :=
  rows.filterMap
    (fun row =>
      match row with
      | Row.data r => some r.profit_amount
      | Row.placeholder _ _ => none)

/-! ### Concrete instances used by witnesses and counterexamples -/

/-- A suspended quote with a nonzero previous close and a (stale) raw price
different from it. -/
def qSuspendedW : Quote :=
  ⟨"600000".toList, "PF".toList, 10, 13, 10, 10, "09:30:00".toList, true⟩

/-- The row `display_stock_info` renders for `qSuspendedW` with quantity 1 and
no previous price. -/
def rSuspendedW : RenderedRow :=
  ⟨"PF".toList, 1, Trend.flat, 10, 10, 10, 0, 0, ((10 : ℚ) - 10) * ((1 : ℤ) : ℚ),
    10 * ((1 : ℤ) : ℚ), "09:30:00".toList⟩

/-- An ordinary (not suspended) quote. -/
def qPlainW : Quote :=
  ⟨"000001".toList, "PA".toList, 10, 12, 12, 9, "09:31:00".toList, false⟩

/-- The row rendered for `qPlainW` with quantity 0 and no previous price. -/
def rPlainW : RenderedRow :=
  ⟨"PA".toList, 0, Trend.flat, 12, 9, 12, (12 : ℚ) - 10, ((12 : ℚ) - 10) / 10 * 100,
    ((12 : ℚ) - 10) * ((0 : ℤ) : ℚ), 10 * ((0 : ℤ) : ℚ), "09:31:00".toList⟩

/-- A suspended quote whose previous close is zero (the crashing input of
`display_stock_info`). -/
def qZeroPreW : Quote :=
  ⟨"600000".toList, "PZ".toList, 0, 7, 7, 7, "09:32:00".toList, true⟩

/-- A quote whose price equals its previous close (no movement). -/
def qFlatW : Quote :=
  ⟨"600000".toList, "PF2".toList, 10, 10, 10, 10, "09:33:00".toList, false⟩

/-- A quote with a zero fetched price (so the last-price map must not be
updated for it). -/
def qZeroPriceW : Quote :=
  ⟨"000002".toList, "PQ".toList, 10, 0, 0, 0, "09:34:00".toList, true⟩

/-- A three-stock list: one live quote, one failed fetch, one zero price. -/
def slW : List StockItem :=
  [⟨"600000".toList, 1⟩, ⟨"000001".toList, 1⟩, ⟨"000002".toList, 1⟩]

/-- One-stock list used for single-row cycle witnesses. -/
def slOneW : List StockItem := [⟨"600000".toList, 1⟩]

/-- Fetch outcome: `600000` succeeds with `qFlatW`, `000002` succeeds with the
zero-price `qZeroPriceW`, everything else fails. -/
def fetchW : PyStr → Option Quote := fun c =>
  if c = "600000".toList then some qFlatW
  else if c = "000002".toList then some qZeroPriceW
  else none

/-- A pre-cycle last-price map holding values for `600000` and `000002`. -/
def lpW : PyStr → Option ℚ := fun c =>
  if c = "000002".toList then some 7
  else if c = "600000".toList then some 10
  else none

/-- A quote suspended by rule (b) of the full-field path: zero price, nonzero
previous close (built through the real full-field constructor). -/
def qSuspZeroW : Quote :=
  full_field_quote "000001".toList "AA".toList 10 0 0 0 5 "t1".toList

/-- A quote that traded down (price 9 against previous close 10). -/
def qDownW : Quote :=
  full_field_quote "000002".toList "BB".toList 10 9 10 9 500 "t2".toList

/-- A quote suspended by rule (b) with a negative previous close. -/
def qSuspNegPreW : Quote :=
  full_field_quote "000003".toList "NP".toList (-10) 0 0 0 120 "t3".toList

/-- Two-stock list pairing the suspended-at-zero quote with the down-moving
one. -/
def slC3W : List StockItem := [⟨"000001".toList, 1⟩, ⟨"000002".toList, 1⟩]

/-- Fetch outcome for the sorting counterexample. -/
def fetchC3W : PyStr → Option Quote := fun c =>
  if c = "000001".toList then some qSuspZeroW
  else if c = "000002".toList then some qDownW
  else none

/-- Fetch outcome pairing the two suspended quotes of the sort-key analysis. -/
def fetchC9W : PyStr → Option Quote := fun c =>
  if c = "000001".toList then some qSuspZeroW
  else if c = "000003".toList then some qSuspNegPreW
  else none

/-- The row rendered for `qSuspZeroW` with quantity 2 and no previous price. -/
def rC9W : RenderedRow :=
  ⟨"AA".toList, 2, Trend.flat, 0, 0, 10, 0, 0, ((10 : ℚ) - 10) * ((2 : ℤ) : ℚ),
    10 * ((2 : ℤ) : ℚ), "t1".toList⟩

/-- The row rendered for `qFlatW` with the negative quantity -50 and no
previous price. -/
def rNegW : RenderedRow :=
  ⟨"PF2".toList, -50, Trend.flat, 10, 10, 10, (10 : ℚ) - 10, ((10 : ℚ) - 10) / 10 * 100,
    ((10 : ℚ) - 10) * ((-50 : ℤ) : ℚ), 10 * ((-50 : ℤ) : ℚ), "09:33:00".toList⟩

/-! ### Helper lemmas -/

/-- Inversion for a successful `displayRow`: the divisor `pre_close` was
nonzero, and every field of the produced row is determined by the quote, the
quantity and the previous price. -/
theorem displayRow_fields {q : Quote} {qty : ℤ} {lp : Option ℚ} {r : RenderedRow}
    (hr : displayRow q qty lp = some r) :
    q.pre_close ≠ 0 ∧
      r.display_price = effective_price q ∧
      r.change = (if q.is_suspended then 0 else q.price - q.pre_close) ∧
      r.change_pct =
        (if q.is_suspended then 0 else (q.price - q.pre_close) / q.pre_close * 100) ∧
      r.profit_amount = (effective_price q - q.pre_close) * (qty : ℚ) ∧
      r.cost = q.pre_close * (qty : ℚ) ∧
      r.trend = trendOf (effective_price q) lp ∧
      r.quantity = qty := by
  by_cases h0 : q.pre_close = 0
  · simp [displayRow, pydiv, h0] at hr
  · simp only [displayRow, pydiv, h0, if_false, ite_false, Option.some.injEq,
      reduceIte] at hr
    subst hr
    refine ⟨h0, rfl, rfl, rfl, rfl, rfl, rfl, rfl⟩

/-- If `renderAll` succeeds then the printed rows correspond one-to-one, in
order, with the processed `stock_profits` entries, and any property implied
by `renderEntry` holds of each pair. -/
theorem renderAll_forall₂ {snapshot : PyStr → Option ℚ}
    {P : ProfitEntry → Row → Prop}
    (hP : ∀ e row p c, renderEntry snapshot e = some (row, p, c) → P e row) :
    ∀ {entries : List ProfitEntry} {rows : List Row} {tp tc : ℚ},
      renderAll snapshot entries = some (rows, tp, tc) → List.Forall₂ P entries rows := by
  intro entries
  induction entries with
  | nil =>
    intro rows tp tc h
    simp only [renderAll, Option.some.injEq] at h
    obtain ⟨rfl, -, -⟩ := h
    exact List.Forall₂.nil
  | cons e es ih =>
    intro rows tp tc h
    rcases he : renderEntry snapshot e with - | ⟨row, p, c⟩
    · simp [renderAll, he] at h
    · rcases hrest : renderAll snapshot es with - | ⟨rows', tp', tc'⟩
      · simp [renderAll, he, hrest] at h
      · simp only [renderAll, he, hrest, Option.some.injEq, Prod.mk.injEq] at h
        obtain ⟨rfl, -, -⟩ := h
        exact List.Forall₂.cons (hP e row p c he) (ih hrest)

/-! ### Claims -/

/-- C1: a quote parsed on the full-field path (at least 32 comma-separated
fields) is marked suspended if and only if (a) `price = pre_close` and
`volume = 0` and `high = low = pre_close`, or (b) `price = 0` and
`pre_close ≠ 0`, or (c) `volume = 0` and `price = pre_close`; and the
scenario `price = 0, pre_close = 8.50, volume = 120` is suspended, with
rule (b) holding and rules (a) and (c) failing. -/
theorem C1_full_path_suspension (code name : PyStr) (pre_close price high low : ℚ)
    (volume : ℤ) (time : PyStr) :
    ((full_field_quote code name pre_close price high low volume time).is_suspended = true ↔
      ((price = pre_close ∧ volume = 0 ∧ high = low ∧ high = pre_close) ∨
        (price = 0 ∧ pre_close ≠ 0) ∨
        (volume = 0 ∧ price = pre_close)))
    ∧ ((full_field_quote code name (17/2) 0 high low 120 time).is_suspended = true
        ∧ ¬ ((0 : ℚ) = 17/2 ∧ (120 : ℤ) = 0 ∧ high = low ∧ high = (17/2 : ℚ))
        ∧ ((0 : ℚ) = 0 ∧ (17/2 : ℚ) ≠ 0)
        ∧ ¬ ((120 : ℤ) = 0 ∧ (0 : ℚ) = 17/2)) := by
  constructor
  · simp [full_field_quote, is_suspended_full, and_assoc, or_assoc]
  · refine ⟨?_, ?_, ?_, ?_⟩
    · norm_num [full_field_quote, is_suspended_full]
    · norm_num
    · norm_num
    · norm_num

/-- C2: every row actually rendered for a suspended quote shows
`display_price = pre_close` and `change_pct = 0`, and `display_stock_info`
returns profit `0` for it, regardless of the raw fetched price and for every
holding quantity. -/
theorem C2_suspended_row_zeroed (q : Quote) (qty : ℤ) (lp : Option ℚ)
    (r : RenderedRow) (hs : q.is_suspended = true)
    (hr : displayRow q qty lp = some r) :
    r.display_price = q.pre_close ∧ r.change_pct = 0 ∧ r.profit_amount = 0 ∧
      display_stock_info (some q) qty lp = some (0, q.pre_close, q.pre_close * (qty : ℚ)) := by
  obtain ⟨h0, hdp, hch, hpct, hpr, hcost, -, -⟩ := displayRow_fields hr
  have hep : effective_price q = q.pre_close := by simp [effective_price, hs]
  refine ⟨by rw [hdp, hep], by rw [hpct]; simp [hs], by rw [hpr, hep]; ring, ?_⟩
  simp only [display_stock_info, hr, Option.map_some']
  rw [hpr, hcost, hdp, hep]
  simp

/-- Witness for C2 at a concrete suspended quote (raw price 13, previous
close 10, quantity 1, no previous recorded price). -/
theorem C2_suspended_row_zeroed_witness :
    qSuspendedW.is_suspended = true ∧
      displayRow qSuspendedW 1 none = some rSuspendedW ∧
      (rSuspendedW.display_price = qSuspendedW.pre_close ∧
        rSuspendedW.change_pct = 0 ∧ rSuspendedW.profit_amount = 0 ∧
        display_stock_info (some qSuspendedW) 1 none
          = some (0, qSuspendedW.pre_close, qSuspendedW.pre_close * ((1 : ℤ) : ℚ))) :=
  ⟨rfl, rfl, C2_suspended_row_zeroed qSuspendedW 1 none rSuspendedW rfl rfl⟩

/-- C5: the profit rendered and returned by `display_stock_info` is exactly
`(effective_price - pre_close) * quantity`, where the effective price is
`pre_close` for a suspended quote and the fetched price otherwise; in
particular quantity 0 always yields profit 0. -/
theorem C5_profit_formula (q : Quote) (qty : ℤ) (lp : Option ℚ)
    (r : RenderedRow) (hr : displayRow q qty lp = some r) :
    r.profit_amount = (effective_price q - q.pre_close) * (qty : ℚ) ∧
      display_stock_info (some q) qty lp
        = some ((effective_price q - q.pre_close) * (qty : ℚ), r.display_price, r.cost) ∧
      (qty = 0 → r.profit_amount = 0) := by
  obtain ⟨h0, hdp, hch, hpct, hpr, hcost, -, -⟩ := displayRow_fields hr
  refine ⟨hpr, ?_, ?_⟩
  · simp only [display_stock_info, hr, Option.map_some', hpr]
  · intro h
    rw [hpr, h]
    simp

/-- Witness for C5 at a concrete un-suspended quote (price 12, previous
close 10) held with quantity 0. -/
theorem C5_profit_formula_witness :
    displayRow qPlainW 0 none = some rPlainW ∧
      (rPlainW.profit_amount = (effective_price qPlainW - qPlainW.pre_close) * ((0 : ℤ) : ℚ) ∧
        display_stock_info (some qPlainW) 0 none
          = some ((effective_price qPlainW - qPlainW.pre_close) * ((0 : ℤ) : ℚ),
              rPlainW.display_price, rPlainW.cost) ∧
        ((0 : ℤ) = 0 → rPlainW.profit_amount = 0)) :=
  ⟨rfl, C5_profit_formula qPlainW 0 none rPlainW rfl⟩

/-- C8: for every quote with `pre_close = 0` — suspended or not — the
division by `pre_close` in `display_stock_info` happens before the
suspended-case zeroing, so the row computation raises `ZeroDivisionError`
(`none`), and the error propagates through a whole refresh cycle of
`monitor_loop`. -/
theorem C8_pre_close_zero_crash (q : Quote) (qty : ℤ) (lp : Option ℚ)
    (h : q.pre_close = 0) :
    displayRow q qty lp = none ∧
      runCycle [⟨q.code, qty⟩] (fun c => if c = q.code then some q else none)
        (fun _ => none) false = none := by
  have hd : ∀ lp' : Option ℚ, displayRow q qty lp' = none := by
    intro lp'
    simp [displayRow, pydiv, h]
  refine ⟨hd lp, ?_⟩
  simp [runCycle, sortEntries, cycleEntries, cycleEntry, renderAll, renderEntry, hd]

/-- Witness for C8 at a concrete suspended quote with `pre_close = 0`. -/
theorem C8_pre_close_zero_crash_witness :
    qZeroPreW.pre_close = 0 ∧ qZeroPreW.is_suspended = true ∧
      (displayRow qZeroPreW 2 none = none ∧
        runCycle [⟨qZeroPreW.code, 2⟩]
          (fun c => if c = qZeroPreW.code then some qZeroPreW else none)
          (fun _ => none) false = none) :=
  ⟨rfl, rfl, C8_pre_close_zero_crash qZeroPreW 2 none rfl⟩

/-- C9, counterexample to the claim as stated: for a suspended quote with
`price = 0` and `pre_close ≠ 0` the sort key need NOT be negative — with
quantity 0 it is 0, and with a negative previous close and positive quantity
it is positive. -/
theorem C9_sort_key_not_always_negative :
    qSuspZeroW.is_suspended = true ∧ qSuspZeroW.price = 0 ∧ qSuspZeroW.pre_close ≠ 0 ∧
      (cycleEntry fetchC9W ⟨"000001".toList, 0⟩).profit_amount = 0 ∧
      ¬ (cycleEntry fetchC9W ⟨"000001".toList, 0⟩).profit_amount < 0 ∧
      qSuspNegPreW.is_suspended = true ∧ qSuspNegPreW.price = 0 ∧
      qSuspNegPreW.pre_close ≠ 0 ∧
      0 < (cycleEntry fetchC9W ⟨"000003".toList, 100⟩).profit_amount := by
  have h1 : fetchC9W ['0', '0', '0', '0', '0', '1'] = some qSuspZeroW := rfl
  have h3 : fetchC9W ['0', '0', '0', '0', '0', '3'] = some qSuspNegPreW := rfl
  refine ⟨rfl, rfl, by norm_num [qSuspZeroW, full_field_quote], ?_, ?_, rfl, rfl,
    by norm_num [qSuspNegPreW, full_field_quote], ?_⟩
  · norm_num [cycleEntry, h1, qSuspZeroW, full_field_quote]
  · norm_num [cycleEntry, h1, qSuspZeroW, full_field_quote]
  · norm_num [cycleEntry, h3, qSuspNegPreW, full_field_quote]

/-- C9, amended: the sort key of a successfully fetched symbol is always
computed from the raw fetched price as `(price - pre_close) * quantity`,
without the suspension adjustment; consequently, for a suspended quote with
`price = 0`, `pre_close > 0` and `quantity > 0`, the sort key is negative
while the profit rendered for that same row is 0. -/
theorem C9_raw_sort_key (it : StockItem) (q : Quote) (fetch : PyStr → Option Quote)
    (lp : Option ℚ) (r : RenderedRow) (hf : fetch it.code = some q) :
    (cycleEntry fetch it).profit_amount = (q.price - q.pre_close) * (it.quantity : ℚ) ∧
      (q.is_suspended = true → q.price = 0 → 0 < q.pre_close → 0 < it.quantity →
        (cycleEntry fetch it).profit_amount < 0 ∧
          (displayRow q it.quantity lp = some r → r.profit_amount = 0)) := by
  have hkey : (cycleEntry fetch it).profit_amount
      = (q.price - q.pre_close) * (it.quantity : ℚ) := by
    simp [cycleEntry, hf]
  refine ⟨hkey, fun hs hp0 hpre hqty => ⟨?_, fun hr => ?_⟩⟩
  · rw [hkey, hp0]
    have hq : (0 : ℚ) < (it.quantity : ℚ) := by exact_mod_cast hqty
    have : (0 : ℚ) - q.pre_close < 0 := by linarith
    exact mul_neg_of_neg_of_pos this hq
  · obtain ⟨-, -, -, -, hpr, -, -, -⟩ := displayRow_fields hr
    rw [hpr]
    simp [effective_price, hs]

/-- Witness for the amended C9 at the concrete suspended quote `qSuspZeroW`
(price 0, previous close 10) held with quantity 2. -/
theorem C9_raw_sort_key_witness :
    (cycleEntry fetchC9W ⟨"000001".toList, 2⟩).profit_amount
        = (qSuspZeroW.price - qSuspZeroW.pre_close) * ((2 : ℤ) : ℚ) ∧
      (cycleEntry fetchC9W ⟨"000001".toList, 2⟩).profit_amount < 0 ∧
      rC9W.profit_amount = 0 :=
  ⟨(C9_raw_sort_key ⟨"000001".toList, 2⟩ qSuspZeroW fetchC9W none rC9W rfl).1,
    ((C9_raw_sort_key ⟨"000001".toList, 2⟩ qSuspZeroW fetchC9W none rC9W rfl).2
      rfl rfl (by decide) (by decide)).1,
    ((C9_raw_sort_key ⟨"000001".toList, 2⟩ qSuspZeroW fetchC9W none rC9W rfl).2
      rfl rfl (by decide) (by decide)).2 rfl⟩

/-- One fold step of the `last_prices` update leaves every other code
untouched. -/
theorem updStep_other {fetch : PyStr → Option Quote} {m : PyStr → Option ℚ}
    {it : StockItem} {c : PyStr} (hne : c ≠ it.code) :
    updStep fetch m it c = m c := by
  rcases hq : fetch it.code with - | q
  · simp [updStep, hq]
  · by_cases hp : 0 < q.price <;> simp [updStep, hq, hp, hne]

/-- Frame property of the cycle's `last_prices` update: a code that does not
occur in the stock list is never touched. -/
theorem updateLastPrices_not_mem {sl : List StockItem} {fetch : PyStr → Option Quote}
    {lp : PyStr → Option ℚ} {c : PyStr} (h : c ∉ sl.map StockItem.code) :
    updateLastPrices sl fetch lp c = lp c := by
  induction sl generalizing lp with
  | nil => rfl
  | cons it sl ih =>
    simp only [List.map_cons, List.mem_cons, not_or] at h
    calc updateLastPrices (it :: sl) fetch lp c
        = updateLastPrices sl fetch (updStep fetch lp it) c := rfl
      _ = lp c := by rw [ih h.2, updStep_other h.1]

/-- A code whose fetch failed, or whose fetched price is not positive, keeps
its previous `last_prices` value through the whole cycle. -/
theorem updateLastPrices_stale {sl : List StockItem} {fetch : PyStr → Option Quote}
    {lp : PyStr → Option ℚ} {c : PyStr}
    (h : fetch c = none ∨ ∃ q, fetch c = some q ∧ ¬ 0 < q.price) :
    updateLastPrices sl fetch lp c = lp c := by
  induction sl generalizing lp with
  | nil => rfl
  | cons it sl ih =>
    have hstep : updStep fetch lp it c = lp c := by
      by_cases hc : c = it.code
      · subst hc
        rcases h with h | ⟨q, hq, hp⟩
        · simp [updStep, h]
        · simp [updStep, hq, hp]
      · exact updStep_other hc
    calc updateLastPrices (it :: sl) fetch lp c
        = updateLastPrices sl fetch (updStep fetch lp it) c := rfl
      _ = lp c := by rw [ih, hstep]

/-- A code in the stock list whose fetched price is positive ends the cycle
bound to that price in `last_prices`. -/
theorem updateLastPrices_write {sl : List StockItem} {fetch : PyStr → Option Quote}
    {lp : PyStr → Option ℚ} {c : PyStr} {q : Quote}
    (hq : fetch c = some q) (hp : 0 < q.price) (hmem : c ∈ sl.map StockItem.code) :
    updateLastPrices sl fetch lp c = some q.price := by
  induction sl generalizing lp with
  | nil => simp at hmem
  | cons it sl ih =>
    by_cases hrest : c ∈ sl.map StockItem.code
    · exact ih hrest
    · simp only [List.map_cons, List.mem_cons] at hmem
      rcases hmem with hc | hc
      · calc updateLastPrices (it :: sl) fetch lp c
            = updateLastPrices sl fetch (updStep fetch lp it) c := rfl
          _ = updStep fetch lp it c := updateLastPrices_not_mem hrest
          _ = some q.price := by
              subst hc
              simp [updStep, hq, hp]
      · exact absurd hc hrest

/-- C4: after one refresh cycle, the last-price map binds each listed code
whose fetched price was positive to that cycle's fetched price, is unchanged
at every code whose fetch failed or whose cycle price was 0, and is unchanged
at every code outside the stock list. -/
theorem C4_last_price_map_frame (sl : List StockItem) (fetch : PyStr → Option Quote)
    (lp : PyStr → Option ℚ) (code : PyStr) (q : Quote) :
    (fetch code = some q → 0 < q.price → code ∈ sl.map StockItem.code →
        updateLastPrices sl fetch lp code = some q.price)
    ∧ (fetch code = none → updateLastPrices sl fetch lp code = lp code)
    ∧ (fetch code = some q → q.price = 0 → updateLastPrices sl fetch lp code = lp code)
    ∧ (code ∉ sl.map StockItem.code → updateLastPrices sl fetch lp code = lp code) :=
  ⟨fun h1 h2 h3 => updateLastPrices_write h1 h2 h3,
    fun h => updateLastPrices_stale (Or.inl h),
    fun h1 h2 => updateLastPrices_stale (Or.inr ⟨q, h1, by simp [h2]⟩),
    fun h => updateLastPrices_not_mem h⟩

/-- Witness for C4 on the three-stock list `slW`: the live code is rebound to
its new price, the failed-fetch code and the zero-price code keep their old
values, and an unlisted code is untouched. -/
theorem C4_last_price_map_frame_witness :
    updateLastPrices slW fetchW lpW "600000".toList = some 10 ∧
      updateLastPrices slW fetchW lpW "000001".toList = none ∧
      updateLastPrices slW fetchW lpW "000002".toList = some 7 ∧
      updateLastPrices slW fetchW lpW "999999".toList = none :=
  ⟨(C4_last_price_map_frame slW fetchW lpW "600000".toList qFlatW).1 rfl (by decide)
      (by decide),
    (C4_last_price_map_frame slW fetchW lpW "000001".toList qFlatW).2.1 rfl,
    (C4_last_price_map_frame slW fetchW lpW "000002".toList qZeroPriceW).2.2.1 rfl rfl,
    (C4_last_price_map_frame slW fetchW lpW "999999".toList qFlatW).2.2.2 (by decide)⟩

/-- C10: `read_stock_list` does not enforce the `quantity ≥ 0` constraint of
the data model: any line whose second whitespace-separated field parses as an
integer — negative included — yields an entry carrying exactly that quantity,
and that quantity flows unchanged into the cycle's profit key and the
rendered cost. -/
theorem C10_negative_quantity_accepted (line p0 p1 : PyStr) (rest : List PyStr)
    (n : ℤ) (hsplit : pySplitWs (pyStrip line) = p0 :: p1 :: rest)
    (hhash : startsHash (pyStrip line) = false)
    (hn : pyParseInt p1 = some n) :
    (∀ lines : List PyStr,
        read_stock_list (lines ++ [line])
          = read_stock_list lines ++ [⟨codeToken p0, n⟩])
    ∧ (∀ (fetch : PyStr → Option Quote) (q : Quote), fetch (codeToken p0) = some q →
        (cycleEntry fetch ⟨codeToken p0, n⟩).profit_amount
          = (q.price - q.pre_close) * (n : ℚ))
    ∧ (∀ (q : Quote) (lp : Option ℚ) (r : RenderedRow),
        displayRow q n lp = some r → r.cost = q.pre_close * (n : ℚ)) := by
  have hne : pyStrip line ≠ [] := by
    intro h0
    rw [h0] at hsplit
    simp [pySplitWs, pySplitWsAux] at hsplit
  have hps : parseStockLine line = some ⟨codeToken p0, n⟩ := by
    simp [parseStockLine, hne, hhash, hsplit, hn]
  refine ⟨?_, ?_, ?_⟩
  · intro lines
    simp [read_stock_list, List.filterMap_append, hps]
  · intro fetch q hq
    simp [cycleEntry, hq]
  · intro q lp r hr
    exact (displayRow_fields hr).2.2.2.2.2.1

/-- Witness for C10 on the concrete line `"600000.SH -50"`: the entry keeps
quantity -50, which then reaches the sort key and the cost. -/
theorem C10_negative_quantity_accepted_witness :
    read_stock_list ["600000.SH -50".toList] = [⟨"600000".toList, -50⟩] ∧
      (cycleEntry fetchW ⟨"600000".toList, -50⟩).profit_amount
        = (qFlatW.price - qFlatW.pre_close) * ((-50 : ℤ) : ℚ) ∧
      rNegW.cost = qFlatW.pre_close * ((-50 : ℤ) : ℚ) :=
  ⟨(C10_negative_quantity_accepted "600000.SH -50".toList "600000.SH".toList
      "-50".toList [] (-50) rfl rfl rfl).1 [],
    (C10_negative_quantity_accepted "600000.SH -50".toList "600000.SH".toList
      "-50".toList [] (-50) rfl rfl rfl).2.1 fetchW qFlatW rfl,
    (C10_negative_quantity_accepted "600000.SH -50".toList "600000.SH".toList
      "-50".toList [] (-50) rfl rfl rfl).2.2 qFlatW none rNegW rfl⟩

/-- C7: a symbol whose fetch failed is rendered as a placeholder row exactly
where it stands, contributes 0 to `total_profit` and 0 to `total_cost`, and
never turns a succeeding cycle into a failing one; and the overall return is
`total_profit / total_cost * 100` when `total_cost ≠ 0` and `0` otherwise. -/
theorem C7_failed_fetch_isolated (snapshot : PyStr → Option ℚ)
    (before after : List ProfitEntry) (e : ProfitEntry) (tp tc : ℚ)
    (he : e.info = none) :
    renderAll snapshot (before ++ e :: after)
      = (renderAll snapshot (before ++ after)).map
          (fun x =>
            (x.1.take before.length
                ++ Row.placeholder e.item.code e.holding_quantity :: x.1.drop before.length,
              x.2.1, x.2.2))
    ∧ overallReturn tp tc = (if tc ≠ 0 then tp / tc * 100 else 0) := by
  refine ⟨?_, rfl⟩
  induction before with
  | nil =>
    rcases hr : renderAll snapshot after with - | ⟨rows, tp', tc'⟩ <;>
      simp [renderAll, renderEntry, he, hr]
  | cons a before ih =>
    rcases ha : renderEntry snapshot a with - | ⟨row, p, c⟩
    · simp [renderAll, ha]
    · rcases hr : renderAll snapshot (before ++ after) with - | ⟨rows, tp', tc'⟩
      · simp only [List.cons_append, renderAll, List.append_eq, ha, ih, hr,
          Option.map_none']
      · simp only [List.cons_append, renderAll, List.append_eq, ha, ih, hr,
          Option.map_some', List.length_cons, List.take_succ_cons, List.drop_succ_cons]

/-- Witness for C7: a one-entry list holding only a failed fetch renders a
placeholder and keeps the totals of the empty list; overall return with zero
cost is 0. -/
theorem C7_failed_fetch_isolated_witness :
    (⟨⟨"000001".toList, 3⟩, none, 3, 0⟩ : ProfitEntry).info = none ∧
      (renderAll (fun _ => none) [⟨⟨"000001".toList, 3⟩, none, 3, 0⟩]
        = (renderAll (fun _ => none) []).map
            (fun x =>
              (x.1.take 0 ++ Row.placeholder "000001".toList 3 :: x.1.drop 0,
                x.2.1, x.2.2))
      ∧ overallReturn 5 0 = (if (0 : ℚ) ≠ 0 then 5 / 0 * 100 else 0)) :=
  ⟨rfl, C7_failed_fetch_isolated (fun _ => none) [] [] ⟨⟨"000001".toList, 3⟩, none, 3, 0⟩
    5 0 rfl⟩

/-- The `stock_profits` element built for a stock item keeps that item. -/
theorem cycleEntry_item (fetch : PyStr → Option Quote) (it : StockItem) :
    (cycleEntry fetch it).item = it := by
  rcases h : fetch it.code with - | q <;> simp [cycleEntry, h]

/-- The `stock_profits` element records exactly the fetch outcome of its
item's code. -/
theorem cycleEntry_info (fetch : PyStr → Option Quote) (it : StockItem) :
    (cycleEntry fetch it).info = fetch it.code := by
  rcases h : fetch it.code with - | q <;> simp [cycleEntry, h]

/-- The `stock_profits` element keeps the item's holding quantity. -/
theorem cycleEntry_qty (fetch : PyStr → Option Quote) (it : StockItem) :
    (cycleEntry fetch it).holding_quantity = it.quantity := by
  rcases h : fetch it.code with - | q <;> simp [cycleEntry, h]

/-- C6: in every successful cycle, each rendered data row's trend is `flat`
when the pre-cycle `last_prices` map holds no value for the symbol (first
successful fetch included), and otherwise is `up`, `down` or `flat` according
to whether the effective (displayed) price exceeds, undercuts or equals the
map value snapshotted before any of the cycle's updates. -/
theorem C6_trend_from_pre_cycle_snapshot (sl : List StockItem)
    (fetch : PyStr → Option Quote) (lp : PyStr → Option ℚ) (sb : Bool)
    (res : CycleResult) (h : runCycle sl fetch lp sb = some res) :
    List.Forall₂
      (fun (e : ProfitEntry) (row : Row) => ∀ r, row = Row.data r →
        r.trend =
          match lp e.item.code with
          | none => Trend.flat
          | some prev =>
            if prev < r.display_price then Trend.up
            else if r.display_price < prev then Trend.down
            else Trend.flat)
      (sortEntries sb (cycleEntries sl fetch)) res.rows := by
  rcases hra : renderAll lp (sortEntries sb (cycleEntries sl fetch)) with - | ⟨rows, tp, tc⟩
  · rw [runCycle, hra] at h
    cases h
  · rw [runCycle, hra] at h
    obtain rfl : (⟨rows, tp, tc, overallReturn tp tc⟩ : CycleResult) = res := by
      simpa using h
    refine renderAll_forall₂ ?_ hra
    intro e row p c hre r hrow
    subst hrow
    rcases hinfo : e.info with - | q
    · simp only [renderEntry, hinfo] at hre
      simp at hre
    · simp only [renderEntry, hinfo] at hre
      rcases hd : displayRow q e.holding_quantity (lp e.item.code) with - | r0
      · rw [hd] at hre
        simp at hre
      · rw [hd] at hre
        simp only [Option.map_some', Option.some.injEq, Prod.mk.injEq] at hre
        obtain ⟨h1, -, -⟩ := hre
        obtain rfl : r0 = r := by injection h1
        obtain ⟨-, hdp, -, -, -, -, htr, -⟩ := displayRow_fields hd
        rw [htr, hdp]
        cases hlp : lp e.item.code with
        | none => simp [trendOf]
        | some prev => simp [trendOf, gt_iff_lt]

/-- Witness for C6: a one-stock cycle against a snapshot that already holds
the (unchanged) price, so the rendered trend is computed flat by comparison
with the snapshotted value. -/
theorem C6_trend_from_pre_cycle_snapshot_witness :
    List.Forall₂
      (fun (e : ProfitEntry) (row : Row) => ∀ r, row = Row.data r →
        r.trend =
          match lpW e.item.code with
          | none => Trend.flat
          | some prev =>
            if prev < r.display_price then Trend.up
            else if r.display_price < prev then Trend.down
            else Trend.flat)
      (sortEntries false (cycleEntries slOneW fetchW))
      [Row.data ⟨"PF2".toList, 1, Trend.flat, 10, 10, 10, 0, 0, 0, 10,
        "09:33:00".toList⟩] :=
  C6_trend_from_pre_cycle_snapshot slOneW fetchW lpW false
    ⟨[Row.data ⟨"PF2".toList, 1, Trend.flat, 10, 10, 10, 0, 0, 0, 10,
        "09:33:00".toList⟩], 0, 10, 0⟩
    (by
      have hf : fetchW ['6', '0', '0', '0', '0', '0'] = some qFlatW := rfl
      have hl : lpW ['6', '0', '0', '0', '0', '0'] = some 10 := rfl
      simp [runCycle, renderAll, renderEntry, sortEntries, cycleEntries, cycleEntry,
        displayRow, pydiv, trendOf, overallReturn, slOneW, qFlatW, hf, hl])

/-- C3, counterexample to the claim as stated: with `sort_by_profit` enabled,
the profit values of the RENDERED rows can increase along the table, because
the sort key of a suspended quote is its raw (negative) profit while its
rendered profit is 0. Here the down-moving stock (rendered profit -1) is
printed before the suspended one (rendered profit 0). -/
theorem C3_rendered_profits_not_sorted :
    runCycle slC3W fetchC3W (fun _ => none) true
      = some ⟨[Row.data ⟨"BB".toList, 1, Trend.flat, 10, 9, 9, -1, -10, -1, 10,
            "t2".toList⟩,
          Row.data ⟨"AA".toList, 1, Trend.flat, 0, 0, 10, 0, 0, 0, 10, "t1".toList⟩],
          -1, 20, -5⟩
    ∧ ¬ List.Pairwise (fun a b : ℚ => b ≤ a)
        (rowProfits
          [Row.data ⟨"BB".toList, 1, Trend.flat, 10, 9, 9, -1, -10, -1, 10,
            "t2".toList⟩,
           Row.data ⟨"AA".toList, 1, Trend.flat, 0, 0, 10, 0, 0, 0, 10,
            "t1".toList⟩]) := by
  constructor
  · have hA : fetchC3W ['0', '0', '0', '0', '0', '1'] = some qSuspZeroW := rfl
    have hB : fetchC3W ['0', '0', '0', '0', '0', '2'] = some qDownW := rfl
    have hA1 : qSuspZeroW.price = 0 := rfl
    have hA2 : qSuspZeroW.pre_close = 10 := rfl
    have hB1 : qDownW.price = 9 := rfl
    have hB2 : qDownW.pre_close = 10 := rfl
    have hdA : displayRow qSuspZeroW 1 none
        = some ⟨"AA".toList, 1, Trend.flat, 0, 0, 10, 0, 0,
            ((10 : ℚ) - 10) * ((1 : ℤ) : ℚ), 10 * ((1 : ℤ) : ℚ), "t1".toList⟩ := rfl
    have hdB : displayRow qDownW 1 none
        = some ⟨"BB".toList, 1, Trend.flat, 10, 9, 9, (9 : ℚ) - 10,
            ((9 : ℚ) - 10) / 10 * 100, ((9 : ℚ) - 10) * ((1 : ℤ) : ℚ),
            10 * ((1 : ℤ) : ℚ), "t2".toList⟩ := rfl
    norm_num [runCycle, renderAll, renderEntry, sortEntries, cycleEntries, cycleEntry,
      List.insertionSort, List.orderedInsert, overallReturn, slC3W, hA, hB, hA1, hA2,
      hB1, hB2, hdA, hdB]
  · norm_num [rowProfits, List.filterMap_cons, List.pairwise_cons]

/-- C3, amended: with `sort_by_profit` enabled the SORT KEYS (the raw
`profit_amount` values carried by the `stock_profits` entries) are
non-increasing along the rendered rows, and with it disabled the rows are
rendered in the input order of the stock list — but the profit values shown
in the rendered rows themselves need not be monotone (see the
counterexample). -/
theorem C3_sort_key_order (sl : List StockItem) (fetch : PyStr → Option Quote) :
    List.Pairwise (fun a b : ℚ => b ≤ a)
        ((sortEntries true (cycleEntries sl fetch)).map ProfitEntry.profit_amount)
    ∧ sortEntries false (cycleEntries sl fetch) = cycleEntries sl fetch
    ∧ ∀ (lp : PyStr → Option ℚ) (rows : List Row) (tp tc : ℚ),
        renderAll lp (sortEntries false (cycleEntries sl fetch)) = some (rows, tp, tc) →
        List.Forall₂
          (fun (it : StockItem) (row : Row) =>
            (fetch it.code = none → row = Row.placeholder it.code it.quantity) ∧
            ∀ q, fetch it.code = some q →
              ∃ r, row = Row.data r ∧ displayRow q it.quantity (lp it.code) = some r)
          sl rows := by
  refine ⟨?_, rfl, ?_⟩
  · haveI : IsTrans ProfitEntry (fun a b => b.profit_amount ≤ a.profit_amount) :=
      ⟨fun a b c hab hbc => le_trans hbc hab⟩
    haveI : IsTotal ProfitEntry (fun a b => b.profit_amount ≤ a.profit_amount) :=
      ⟨fun a b => le_total b.profit_amount a.profit_amount⟩
    have hs := List.sorted_insertionSort
      (fun a b : ProfitEntry => b.profit_amount ≤ a.profit_amount)
      (cycleEntries sl fetch)
    rw [List.pairwise_map]
    simpa [sortEntries] using hs
  · intro lp rows tp tc h
    have hP : ∀ (e : ProfitEntry) (row : Row) (p c : ℚ),
        renderEntry lp e = some (row, p, c) →
        (e.info = none → row = Row.placeholder e.item.code e.holding_quantity) ∧
        (∀ q, e.info = some q → ∃ r, row = Row.data r ∧
          displayRow q e.holding_quantity (lp e.item.code) = some r) := by
      intro e row p c hre
      rcases hinfo : e.info with - | q
      · simp only [renderEntry, hinfo, Option.some.injEq, Prod.mk.injEq] at hre
        obtain ⟨rfl, -, -⟩ := hre
        exact ⟨fun _ => rfl, fun q hq => by cases hq⟩
      · simp only [renderEntry, hinfo] at hre
        rcases hd : displayRow q e.holding_quantity (lp e.item.code) with - | r0
        · rw [hd] at hre
          simp at hre
        · rw [hd] at hre
          simp only [Option.map_some', Option.some.injEq, Prod.mk.injEq] at hre
          obtain ⟨rfl, -, -⟩ := hre
          refine ⟨fun h0 => Option.noConfusion h0, fun q' hq' => ?_⟩
          obtain rfl : q = q' := by injection hq'
          exact ⟨r0, rfl, hd⟩
    have h' : renderAll lp (List.map (cycleEntry fetch) sl) = some (rows, tp, tc) := h
    have h2 := renderAll_forall₂ hP h'
    rw [List.forall₂_map_left_iff] at h2
    refine h2.imp ?_
    intro it row hp
    rwa [cycleEntry_info, cycleEntry_item, cycleEntry_qty] at hp

/-- Witness for the amended C3: rendering the two-stock cycle in input order
(`sort_by_profit` disabled) pairs each stock with its row. -/
theorem C3_sort_key_order_witness :
    List.Forall₂
      (fun (it : StockItem) (row : Row) =>
        (fetchC3W it.code = none → row = Row.placeholder it.code it.quantity) ∧
        ∀ q, fetchC3W it.code = some q →
          ∃ r, row = Row.data r ∧ displayRow q it.quantity none = some r)
      slC3W
      [Row.data ⟨"AA".toList, 1, Trend.flat, 0, 0, 10, 0, 0,
          ((10 : ℚ) - 10) * ((1 : ℤ) : ℚ), 10 * ((1 : ℤ) : ℚ), "t1".toList⟩,
        Row.data ⟨"BB".toList, 1, Trend.flat, 10, 9, 9, (9 : ℚ) - 10,
          ((9 : ℚ) - 10) / 10 * 100, ((9 : ℚ) - 10) * ((1 : ℤ) : ℚ),
          10 * ((1 : ℤ) : ℚ), "t2".toList⟩] :=
  (C3_sort_key_order slC3W fetchC3W).2.2 (fun _ => none)
    [Row.data ⟨"AA".toList, 1, Trend.flat, 0, 0, 10, 0, 0,
        ((10 : ℚ) - 10) * ((1 : ℤ) : ℚ), 10 * ((1 : ℤ) : ℚ), "t1".toList⟩,
      Row.data ⟨"BB".toList, 1, Trend.flat, 10, 9, 9, (9 : ℚ) - 10,
        ((9 : ℚ) - 10) / 10 * 100, ((9 : ℚ) - 10) * ((1 : ℤ) : ℚ),
        10 * ((1 : ℤ) : ℚ), "t2".toList⟩]
    (((10 : ℚ) - 10) * ((1 : ℤ) : ℚ) + (((9 : ℚ) - 10) * ((1 : ℤ) : ℚ) + 0))
    (10 * ((1 : ℤ) : ℚ) + (10 * ((1 : ℤ) : ℚ) + 0)) rfl

end StockMonitor
